import Mathlib

/-!
Verification of the brute-force-protection attempt guard
(`src/lib/rate-limit.ts` of Tavariccsalvc/ldcstore).

Timestamps are JavaScript `Date.now()` millisecond values, modelled as `Int`.
The `Map<string, RateLimitRecord>` store is modelled as a function
`String → Option RateLimitRecord` with `get` / `set` / `delete` mirroring
the `Map` operations used by the source.
-/

namespace RateLimit

/-- The `RateLimitRecord` interface of the source. -/
structure RateLimitRecord where
  count : Int
  firstAttempt : Int
  lastAttempt : Int
  blocked : Bool
  blockedUntil : Int
deriving DecidableEq, Repr

/-- The `loginAttempts` map: identifier → record. -/
def Store : Type := String → Option RateLimitRecord

/-- `CONFIG.WINDOW_MS`: 15 minutes in milliseconds. -/
def WINDOW_MS : Int := 15 * 60 * 1000

/-- `CONFIG.MAX_ATTEMPTS`. -/
def MAX_ATTEMPTS : Int := 5

/-- `CONFIG.BLOCK_DURATION_MS`: 30 minutes in milliseconds. -/
def BLOCK_DURATION_MS : Int := 30 * 60 * 1000

def Store.get (s : Store) (k : String) : Option RateLimitRecord := s k

def Store.set (s : Store) (k : String) (r : RateLimitRecord) : Store :=
  fun k2 => if k2 = k then some r else s k2

def Store.delete (s : Store) (k : String) : Store :=
  fun k2 => if k2 = k then none else s k2

def emptyStore : Store := fun _ => none

/-- `Math.ceil(a / b)` on integer inputs with `b > 0` (the only uses in the
source divide by `1000` or `60`): ceiling division. -/
def jsCeil (a b : Int) : Int := -((-a).ediv b)

/-- The `RateLimitResult` interface; the optional `message` field becomes
`Option String`. -/
structure RateLimitResult where
  success : Bool
  remaining : Int
  resetIn : Int
  blocked : Bool
  message : Option String := none
deriving DecidableEq, Repr

/-- Message of the blocked branches of `checkRateLimit` and the blocked
guard of `recordFailedAttempt`. -/
def blockedNowMsg (resetIn : Int) : String :=
  "登录尝试次数过多，请 " ++ toString (jsCeil resetIn 60) ++ " 分钟后再试"

/-- Lockout message of the branch of `recordFailedAttempt` that sets the block. -/
def lockoutMsg (resetIn : Int) : String :=
  "登录尝试次数过多，账户已被临时锁定 " ++ toString (jsCeil resetIn 60) ++ " 分钟"

/-- Soft-warning message when few attempts remain. -/
def remainingMsg (remaining : Int) : String :=
  "还剩 " ++ toString remaining ++ " 次尝试机会"

/-- `checkRateLimit` of the source. Returns the decision together with the
store after the call (the source mutates the module-level map in place; here
the store is passed and returned explicitly). -/
def checkRateLimit (now : Int) (identifier : String) (s : Store) :
    RateLimitResult × Store :=
  match s.get identifier with
  | none =>
    -- no record: 创建新记录 branch with record undefined
    ({ success := true, remaining := MAX_ATTEMPTS,
       resetIn := jsCeil WINDOW_MS 1000, blocked := false }, s)
  | some record =>
    if record.blocked then
      if record.blockedUntil > now then
        let resetIn := jsCeil (record.blockedUntil - now) 1000
        ({ success := false, remaining := 0, resetIn := resetIn, blocked := true,
           message := some (blockedNowMsg resetIn) }, s)
      else
        -- 封禁已过期，清除记录; record becomes undefined and the
        -- !record branch below then returns the fresh decision
        ({ success := true, remaining := MAX_ATTEMPTS,
           resetIn := jsCeil WINDOW_MS 1000, blocked := false },
         s.delete identifier)
    else if now - record.firstAttempt > WINDOW_MS then
      ({ success := true, remaining := MAX_ATTEMPTS,
         resetIn := jsCeil WINDOW_MS 1000, blocked := false }, s)
    else
      let remaining := MAX_ATTEMPTS - record.count
      if remaining ≤ 0 then
        ({ success := false, remaining := 0,
           resetIn := jsCeil (record.firstAttempt + WINDOW_MS - now) 1000,
           blocked := false, message := some "尝试次数过多，请稍后再试" }, s)
      else
        ({ success := true, remaining := remaining,
           resetIn := jsCeil (record.firstAttempt + WINDOW_MS - now) 1000,
           blocked := false }, s)

/-- `recordFailedAttempt` of the source. -/
def recordFailedAttempt (now : Int) (identifier : String) (s : Store) :
    RateLimitResult × Store :=
  match s.get identifier with
  | some record =>
    if record.blocked ∧ record.blockedUntil > now then
      let resetIn := jsCeil (record.blockedUntil - now) 1000
      ({ success := false, remaining := 0, resetIn := resetIn, blocked := true,
         message := some (blockedNowMsg resetIn) }, s)
    else if now - record.firstAttempt > WINDOW_MS then
      let fresh : RateLimitRecord :=
        { count := 1, firstAttempt := now, lastAttempt := now,
          blocked := false, blockedUntil := 0 }
      ({ success := true, remaining := MAX_ATTEMPTS - 1,
         resetIn := jsCeil WINDOW_MS 1000, blocked := false },
       s.set identifier fresh)
    else
      -- 增加失败次数
      let record1 : RateLimitRecord :=
        { record with count := record.count + 1, lastAttempt := now }
      if record1.count ≥ MAX_ATTEMPTS then
        let record2 : RateLimitRecord :=
          { record1 with blocked := true, blockedUntil := now + BLOCK_DURATION_MS }
        let resetIn := jsCeil BLOCK_DURATION_MS 1000
        ({ success := false, remaining := 0, resetIn := resetIn, blocked := true,
           message := some (lockoutMsg resetIn) }, s.set identifier record2)
      else
        let remaining := MAX_ATTEMPTS - record1.count
        ({ success := true, remaining := remaining,
           resetIn := jsCeil (record1.firstAttempt + WINDOW_MS - now) 1000,
           blocked := false,
           message := if remaining ≤ 2 then some (remainingMsg remaining) else none },
         s.set identifier record1)
  | none =>
    let fresh : RateLimitRecord :=
      { count := 1, firstAttempt := now, lastAttempt := now,
        blocked := false, blockedUntil := 0 }
    ({ success := true, remaining := MAX_ATTEMPTS - 1,
       resetIn := jsCeil WINDOW_MS 1000, blocked := false },
     s.set identifier fresh)

/-- `clearRateLimit` of the source. -/
def clearRateLimit (identifier : String) (s : Store) : Store :=
  s.delete identifier

/-- One pass of the cleanup interval body (`startCleanup`, lines 38-47). -/
def cleanupPass (now : Int) (s : Store) : Store :=
  fun k =>
    match s k with
    | some record =>
      if record.blocked ∧ record.blockedUntil < now then none
      else if ¬record.blocked ∧ now - record.firstAttempt > WINDOW_MS then none
      else some record
    | none => none

/-- `checkRateLimit` evicts the record of `identifier` exactly when that
record is blocked and its block has expired (`blockedUntil ≤ now`). -/
def checkEvicts (now : Int) (identifier : String) (s : Store) : Prop :=
  ∃ r, s identifier = some r ∧ r.blocked = true ∧ r.blockedUntil ≤ now

/-- Shape every decision must satisfy (C10): nonnegative remaining, a
successful decision is never marked blocked, and a blocked decision denies
with remaining 0. -/
def DecisionOk (res : RateLimitResult) : Prop :=
  res.remaining ≥ 0 ∧ (res.success = true → res.blocked = false) ∧
  (res.blocked = true → res.success = false ∧ res.remaining = 0)

/-- Stores reached by the four-call warning scenario of C6. -/
def demoStore1 : Store := (recordFailedAttempt 0 "1.2.3.4" emptyStore).2

def demoStore2 : Store := (recordFailedAttempt 0 "1.2.3.4" demoStore1).2

def demoStore3 : Store := (recordFailedAttempt 0 "1.2.3.4" demoStore2).2

/-- Removal condition of one reaper pass as the spec states it: blocked with
`blockedUntil` in the past, or unblocked with the window elapsed. -/
def reaperRemoves (now : Int) (r : RateLimitRecord) : Prop :=
  (r.blocked = true ∧ r.blockedUntil < now) ∨
  (r.blocked = false ∧ now - r.firstAttempt > WINDOW_MS)

/-- Invariant on one record at global time `t`: the window started in the
past, and a blocked record carries a full block duration beyond its window
start. -/
def RecInv (t : Int) (r : RateLimitRecord) : Prop :=
  r.firstAttempt ≤ t ∧
  (r.blocked = true → r.blockedUntil ≥ r.firstAttempt + BLOCK_DURATION_MS)

/-- Store-wide invariant at time `t`. -/
def StoreInv (t : Int) (s : Store) : Prop :=
  ∀ k r, s k = some r → RecInv t r

/-- Stores reachable from the initial empty map through the four
operations, with a nondecreasing clock. -/
inductive Reachable : Int → Store → Prop
  | init (t : Int) : Reachable t emptyStore
  | step_check (t t2 : Int) (id : String) (s : Store) :
      Reachable t s → t ≤ t2 → Reachable t2 (checkRateLimit t2 id s).2
  | step_record (t t2 : Int) (id : String) (s : Store) :
      Reachable t s → t ≤ t2 → Reachable t2 (recordFailedAttempt t2 id s).2
  | step_clear (t : Int) (id : String) (s : Store) :
      Reachable t s → Reachable t (clearRateLimit id s)
  | step_cleanup (t t2 : Int) (s : Store) :
      Reachable t s → t ≤ t2 → Reachable t2 (cleanupPass t2 s)

/-- Store after `n` failed attempts for `"a"` at time 0, used to exhibit
concrete reachable states. -/
def exStoreN : Nat → Store
  | 0 => emptyStore
  | n + 1 => (recordFailedAttempt 0 "a" (exStoreN n)).2

/-- An in-window, not-blocked record with count `c`, window start `t0` and
last failure `tl` (the shape produced and updated by `recordFailedAttempt`
before the threshold). -/
def winRecord (c t0 tl : Int) : RateLimitRecord :=
  { count := c, firstAttempt := t0, lastAttempt := tl,
    blocked := false, blockedUntil := 0 }

/-- Apply `recordFailedAttempt` once for each time in the list, threading
the store. -/
def runFailures (id : String) : List Int → Store → Store
  | [], s => s
  | t :: ts, s => runFailures id ts (recordFailedAttempt t id s).2

/-! ### Branch characterizations -/

theorem Store.get_set_self (s : Store) (k : String) (r : RateLimitRecord) :
    (s.set k r) k = some r := by
  simp [Store.set]

theorem Store.get_set_ne (s : Store) (k k2 : String) (r : RateLimitRecord)
    (h : k2 ≠ k) : (s.set k r) k2 = s k2 := by
  simp [Store.set, h]

theorem Store.get_delete_self (s : Store) (k : String) :
    (s.delete k) k = none := by
  simp [Store.delete]

theorem checkRateLimit_none (now : Int) (id : String) (s : Store)
    (h : s id = none) :
    checkRateLimit now id s =
      ({ success := true, remaining := MAX_ATTEMPTS,
         resetIn := jsCeil WINDOW_MS 1000, blocked := false }, s) := by
  simp [checkRateLimit, Store.get, h]

theorem checkRateLimit_blocked_active (now : Int) (id : String) (s : Store)
    (r : RateLimitRecord) (h : s id = some r) (hb : r.blocked = true)
    (hu : r.blockedUntil > now) :
    checkRateLimit now id s =
      ({ success := false, remaining := 0,
         resetIn := jsCeil (r.blockedUntil - now) 1000, blocked := true,
         message := some (blockedNowMsg (jsCeil (r.blockedUntil - now) 1000)) },
       s) := by
  simp [checkRateLimit, Store.get, h, hb, hu]

theorem checkRateLimit_blocked_expired (now : Int) (id : String) (s : Store)
    (r : RateLimitRecord) (h : s id = some r) (hb : r.blocked = true)
    (hu : r.blockedUntil ≤ now) :
    checkRateLimit now id s =
      ({ success := true, remaining := MAX_ATTEMPTS,
         resetIn := jsCeil WINDOW_MS 1000, blocked := false },
       s.delete id) := by
  simp [checkRateLimit, Store.get, h, hb, not_lt.mpr hu]

theorem checkRateLimit_window_expired (now : Int) (id : String) (s : Store)
    (r : RateLimitRecord) (h : s id = some r) (hb : r.blocked = false)
    (hw : now - r.firstAttempt > WINDOW_MS) :
    checkRateLimit now id s =
      ({ success := true, remaining := MAX_ATTEMPTS,
         resetIn := jsCeil WINDOW_MS 1000, blocked := false }, s) := by
  simp [checkRateLimit, Store.get, h, hb, hw]

theorem checkRateLimit_active_allow (now : Int) (id : String) (s : Store)
    (r : RateLimitRecord) (h : s id = some r) (hb : r.blocked = false)
    (hw : now - r.firstAttempt ≤ WINDOW_MS) (hc : MAX_ATTEMPTS - r.count > 0) :
    checkRateLimit now id s =
      ({ success := true, remaining := MAX_ATTEMPTS - r.count,
         resetIn := jsCeil (r.firstAttempt + WINDOW_MS - now) 1000,
         blocked := false }, s) := by
  simp [checkRateLimit, Store.get, h, hb, not_lt.mpr hw, not_le.mpr hc]

theorem checkRateLimit_active_deny (now : Int) (id : String) (s : Store)
    (r : RateLimitRecord) (h : s id = some r) (hb : r.blocked = false)
    (hw : now - r.firstAttempt ≤ WINDOW_MS) (hc : MAX_ATTEMPTS - r.count ≤ 0) :
    checkRateLimit now id s =
      ({ success := false, remaining := 0,
         resetIn := jsCeil (r.firstAttempt + WINDOW_MS - now) 1000,
         blocked := false, message := some "尝试次数过多，请稍后再试" }, s) := by
  simp [checkRateLimit, Store.get, h, hb, not_lt.mpr hw, hc]

theorem recordFailedAttempt_none (now : Int) (id : String) (s : Store)
    (h : s id = none) :
    recordFailedAttempt now id s =
      ({ success := true, remaining := MAX_ATTEMPTS - 1,
         resetIn := jsCeil WINDOW_MS 1000, blocked := false },
       s.set id { count := 1, firstAttempt := now, lastAttempt := now,
                  blocked := false, blockedUntil := 0 }) := by
  simp [recordFailedAttempt, Store.get, h]

theorem recordFailedAttempt_blocked_active (now : Int) (id : String) (s : Store)
    (r : RateLimitRecord) (h : s id = some r) (hb : r.blocked = true)
    (hu : r.blockedUntil > now) :
    recordFailedAttempt now id s =
      ({ success := false, remaining := 0,
         resetIn := jsCeil (r.blockedUntil - now) 1000, blocked := true,
         message := some (blockedNowMsg (jsCeil (r.blockedUntil - now) 1000)) },
       s) := by
  simp [recordFailedAttempt, Store.get, h, hb, hu]

theorem recordFailedAttempt_window_expired (now : Int) (id : String) (s : Store)
    (r : RateLimitRecord) (h : s id = some r)
    (hg : ¬(r.blocked = true ∧ r.blockedUntil > now))
    (hw : now - r.firstAttempt > WINDOW_MS) :
    recordFailedAttempt now id s =
      ({ success := true, remaining := MAX_ATTEMPTS - 1,
         resetIn := jsCeil WINDOW_MS 1000, blocked := false },
       s.set id { count := 1, firstAttempt := now, lastAttempt := now,
                  blocked := false, blockedUntil := 0 }) := by
  simp only [recordFailedAttempt, Store.get, h]
  rw [if_neg (by simpa using hg), if_pos hw]

theorem recordFailedAttempt_increment (now : Int) (id : String) (s : Store)
    (r : RateLimitRecord) (h : s id = some r)
    (hg : ¬(r.blocked = true ∧ r.blockedUntil > now))
    (hw : now - r.firstAttempt ≤ WINDOW_MS) (hc : r.count + 1 < MAX_ATTEMPTS) :
    recordFailedAttempt now id s =
      ({ success := true, remaining := MAX_ATTEMPTS - (r.count + 1),
         resetIn := jsCeil (r.firstAttempt + WINDOW_MS - now) 1000,
         blocked := false,
         message := if MAX_ATTEMPTS - (r.count + 1) ≤ 2 then
             some (remainingMsg (MAX_ATTEMPTS - (r.count + 1))) else none },
       s.set id { r with count := r.count + 1, lastAttempt := now }) := by
  simp only [recordFailedAttempt, Store.get, h]
  rw [if_neg (by simpa using hg), if_neg (not_lt.mpr hw),
    if_neg (not_le.mpr hc)]

theorem recordFailedAttempt_block (now : Int) (id : String) (s : Store)
    (r : RateLimitRecord) (h : s id = some r)
    (hg : ¬(r.blocked = true ∧ r.blockedUntil > now))
    (hw : now - r.firstAttempt ≤ WINDOW_MS) (hc : r.count + 1 ≥ MAX_ATTEMPTS) :
    recordFailedAttempt now id s =
      ({ success := false, remaining := 0,
         resetIn := jsCeil BLOCK_DURATION_MS 1000, blocked := true,
         message := some (lockoutMsg (jsCeil BLOCK_DURATION_MS 1000)) },
       s.set id { r with
                  count := r.count + 1
                  lastAttempt := now
                  blocked := true
                  blockedUntil := now + BLOCK_DURATION_MS }) := by
  simp only [recordFailedAttempt, Store.get, h]
  rw [if_neg (by simpa using hg), if_neg (not_lt.mpr hw), if_pos hc]

/-- The store returned by `checkRateLimit` when the identifier's record is
not blocked is the input store (no mutation on those paths). -/
theorem checkRateLimit_snd_not_blocked (now : Int) (id : String) (s : Store)
    (r : RateLimitRecord) (h : s id = some r) (hb : r.blocked = false) :
    (checkRateLimit now id s).2 = s := by
  rcases lt_or_le WINDOW_MS (now - r.firstAttempt) with hw | hw
  · rw [checkRateLimit_window_expired now id s r h hb hw]
  · rcases le_or_lt (MAX_ATTEMPTS - r.count) 0 with hc | hc
    · rw [checkRateLimit_active_deny now id s r h hb hw hc]
    · rw [checkRateLimit_active_allow now id s r h hb hw hc]

/-- C1 (amended): checkRateLimit leaves the store unchanged except when the
identifier's record is blocked with an expired block, in which case the call
deletes exactly that record. -/
theorem check_store_effect (now : Int) (id : String) (s : Store) :
    ((checkRateLimit now id s).2 = s.delete id ∧ checkEvicts now id s) ∨
    ((checkRateLimit now id s).2 = s ∧ ¬checkEvicts now id s) := by
  cases h : s id with
  | none =>
    right
    refine ⟨?_, ?_⟩
    · rw [checkRateLimit_none now id s h]
    · rintro ⟨r, hr, -, -⟩
      rw [h] at hr
      exact Option.noConfusion hr
  | some r =>
    by_cases hb : r.blocked = true
    · by_cases hu : r.blockedUntil ≤ now
      · left
        exact ⟨by rw [checkRateLimit_blocked_expired now id s r h hb hu],
          r, h, hb, hu⟩
      · right
        refine ⟨?_, ?_⟩
        · rw [checkRateLimit_blocked_active now id s r h hb (not_le.mp hu)]
        · rintro ⟨r2, hr2, -, hu2⟩
          rw [h] at hr2
          cases hr2
          exact hu hu2
    · right
      have hb2 : r.blocked = false := by
        simpa using hb
      refine ⟨checkRateLimit_snd_not_blocked now id s r h hb2, ?_⟩
      rintro ⟨r2, hr2, hb3, -⟩
      rw [h] at hr2
      cases hr2
      rw [hb2] at hb3
      exact Bool.false_ne_true hb3

/-- C1 (counterexample): with a blocked record whose block has expired,
checkRateLimit removes that record, so the claim that the store is always
left unchanged is false. -/
theorem check_mutates_on_expired_block :
    (checkRateLimit 10 "a"
        (Store.set emptyStore "a"
          { count := 5, firstAttempt := 0, lastAttempt := 0,
            blocked := true, blockedUntil := 10 })).2 "a" ≠
      (Store.set emptyStore "a"
        { count := 5, firstAttempt := 0, lastAttempt := 0,
          blocked := true, blockedUntil := 10 }) "a" := by
  decide

/-- C3: with no record, or with a non-blocked record whose window has
elapsed, checkRateLimit allows with remaining = 5 and resetIn = 900 s. -/
theorem check_fresh_allows (now : Int) (id : String) (s : Store)
    (h : s id = none ∨
      ∃ r, s id = some r ∧ r.blocked = false ∧ now - r.firstAttempt > WINDOW_MS) :
    (checkRateLimit now id s).1.success = true ∧
    (checkRateLimit now id s).1.remaining = 5 ∧
    (checkRateLimit now id s).1.resetIn = 900 := by
  rcases h with h | ⟨r, h, hb, hw⟩
  · rw [checkRateLimit_none now id s h]
    exact ⟨rfl, rfl, rfl⟩
  · rw [checkRateLimit_window_expired now id s r h hb hw]
    exact ⟨rfl, rfl, rfl⟩

theorem check_fresh_allows_witness :
    (checkRateLimit 0 "a" emptyStore).1.success = true ∧
    (checkRateLimit 0 "a" emptyStore).1.remaining = 5 ∧
    (checkRateLimit 0 "a" emptyStore).1.resetIn = 900 :=
  check_fresh_allows 0 "a" emptyStore (Or.inl rfl)

/-- C5: after clearRateLimit on any store, checkRateLimit for that
identifier allows with remaining = 5. -/
theorem clear_then_check_allows (now : Int) (id : String) (s : Store) :
    (checkRateLimit now id (clearRateLimit id s)).1.success = true ∧
    (checkRateLimit now id (clearRateLimit id s)).1.remaining = 5 := by
  have h : (clearRateLimit id s) id = none := by
    simp [clearRateLimit, Store.delete]
  rw [checkRateLimit_none now id _ h]
  exact ⟨rfl, rfl⟩

/-- C10: every decision returned by checkRateLimit or recordFailedAttempt,
on any store and identifier, satisfies the decision-shape invariant. -/
theorem decision_shape (now : Int) (id : String) (s : Store) :
    DecisionOk (checkRateLimit now id s).1 ∧
    DecisionOk (recordFailedAttempt now id s).1 := by
  constructor
  · cases h : s id with
    | none =>
      rw [checkRateLimit_none now id s h]
      exact ⟨by norm_num [MAX_ATTEMPTS], by simp, by simp⟩
    | some r =>
      by_cases hb : r.blocked = true
      · by_cases hu : r.blockedUntil > now
        · rw [checkRateLimit_blocked_active now id s r h hb hu]
          exact ⟨le_refl 0, by simp, by simp⟩
        · rw [checkRateLimit_blocked_expired now id s r h hb (not_lt.mp hu)]
          exact ⟨by norm_num [MAX_ATTEMPTS], by simp, by simp⟩
      · have hb2 : r.blocked = false := by simpa using hb
        by_cases hw : now - r.firstAttempt > WINDOW_MS
        · rw [checkRateLimit_window_expired now id s r h hb2 hw]
          exact ⟨by norm_num [MAX_ATTEMPTS], by simp, by simp⟩
        · by_cases hc : MAX_ATTEMPTS - r.count ≤ 0
          · rw [checkRateLimit_active_deny now id s r h hb2 (not_lt.mp hw) hc]
            exact ⟨le_refl 0, by simp, by simp⟩
          · rw [checkRateLimit_active_allow now id s r h hb2 (not_lt.mp hw)
              (not_le.mp hc)]
            exact ⟨le_of_lt (not_le.mp hc), by simp, by simp⟩
  · cases h : s id with
    | none =>
      rw [recordFailedAttempt_none now id s h]
      exact ⟨by norm_num [MAX_ATTEMPTS], by simp, by simp⟩
    | some r =>
      by_cases hg : r.blocked = true ∧ r.blockedUntil > now
      · rw [recordFailedAttempt_blocked_active now id s r h hg.1 hg.2]
        exact ⟨le_refl 0, by simp, by simp⟩
      · by_cases hw : now - r.firstAttempt > WINDOW_MS
        · rw [recordFailedAttempt_window_expired now id s r h hg hw]
          exact ⟨by norm_num [MAX_ATTEMPTS], by simp, by simp⟩
        · by_cases hc : r.count + 1 ≥ MAX_ATTEMPTS
          · rw [recordFailedAttempt_block now id s r h hg (not_lt.mp hw) hc]
            exact ⟨le_refl 0, by simp, by simp⟩
          · rw [recordFailedAttempt_increment now id s r h hg (not_lt.mp hw)
              (not_le.mp hc)]
            refine ⟨?_, by simp, by simp⟩
            have := not_le.mp hc
            simp only []
            omega

/-- C6: an in-window increment below the threshold allows with
remaining = maxAttempts − count and carries a message exactly when
remaining ≤ 2; in particular four consecutive fresh-start calls return
remaining 4, 3, 2, 1 with messages exactly on the last two. -/
theorem record_increment_warning :
    (∀ (now : Int) (id : String) (s : Store) (r : RateLimitRecord),
      s id = some r → r.blocked = false → now - r.firstAttempt ≤ WINDOW_MS →
      r.count + 1 < MAX_ATTEMPTS →
      (recordFailedAttempt now id s).1.success = true ∧
      (recordFailedAttempt now id s).1.remaining = MAX_ATTEMPTS - (r.count + 1) ∧
      ((recordFailedAttempt now id s).1.message.isSome = true ↔
        (recordFailedAttempt now id s).1.remaining ≤ 2)) ∧
    ((recordFailedAttempt 0 "1.2.3.4" emptyStore).1.remaining = 4 ∧
     (recordFailedAttempt 0 "1.2.3.4" emptyStore).1.message = none ∧
     (recordFailedAttempt 0 "1.2.3.4" demoStore1).1.remaining = 3 ∧
     (recordFailedAttempt 0 "1.2.3.4" demoStore1).1.message = none ∧
     (recordFailedAttempt 0 "1.2.3.4" demoStore2).1.remaining = 2 ∧
     (recordFailedAttempt 0 "1.2.3.4" demoStore2).1.message.isSome = true ∧
     (recordFailedAttempt 0 "1.2.3.4" demoStore3).1.remaining = 1 ∧
     (recordFailedAttempt 0 "1.2.3.4" demoStore3).1.message.isSome = true) := by
  constructor
  · intro now id s r h hb hw hc
    have hg : ¬(r.blocked = true ∧ r.blockedUntil > now) := by
      rintro ⟨hx, -⟩
      rw [hb] at hx
      exact Bool.false_ne_true hx
    rw [recordFailedAttempt_increment now id s r h hg hw hc]
    refine ⟨rfl, rfl, ?_⟩
    by_cases hle : MAX_ATTEMPTS - (r.count + 1) ≤ 2
    · simp [hle]
    · simp [hle]
  · decide

theorem record_increment_warning_witness :
    (recordFailedAttempt 0 "b" (Store.set emptyStore "b"
      { count := 1, firstAttempt := 0, lastAttempt := 0,
        blocked := false, blockedUntil := 0 })).1.success = true ∧
    (recordFailedAttempt 0 "b" (Store.set emptyStore "b"
      { count := 1, firstAttempt := 0, lastAttempt := 0,
        blocked := false, blockedUntil := 0 })).1.remaining =
      MAX_ATTEMPTS - (1 + 1) ∧
    ((recordFailedAttempt 0 "b" (Store.set emptyStore "b"
      { count := 1, firstAttempt := 0, lastAttempt := 0,
        blocked := false, blockedUntil := 0 })).1.message.isSome = true ↔
      (recordFailedAttempt 0 "b" (Store.set emptyStore "b"
        { count := 1, firstAttempt := 0, lastAttempt := 0,
          blocked := false, blockedUntil := 0 })).1.remaining ≤ 2) :=
  record_increment_warning.1 0 "b" _
    { count := 1, firstAttempt := 0, lastAttempt := 0,
      blocked := false, blockedUntil := 0 }
    (Store.get_set_self emptyStore "b" _) rfl (by decide) (by decide)

/-- C8: one cleanup pass removes exactly the records satisfying the spec's
removal condition and keeps every other record unchanged. -/
theorem cleanup_removes_exactly (now : Int) (s : Store) (k : String) :
    (s k = none → cleanupPass now s k = none) ∧
    ∀ r, s k = some r →
      (reaperRemoves now r → cleanupPass now s k = none) ∧
      (¬reaperRemoves now r → cleanupPass now s k = some r) := by
  refine ⟨fun h => by simp [cleanupPass, h], fun r h => ⟨?_, ?_⟩⟩
  · rintro (⟨hb, hu⟩ | ⟨hb, hw⟩)
    · simp [cleanupPass, h, hb, hu]
    · simp [cleanupPass, h, hb, hw]
  · intro hne
    rw [reaperRemoves] at hne
    push_neg at hne
    cases hbv : r.blocked with
    | true =>
      have hu : ¬(r.blockedUntil < now) := not_lt.mpr (hne.1 hbv)
      simp [cleanupPass, h, hbv, hu]
    | false =>
      have hw : ¬(now - r.firstAttempt > WINDOW_MS) := not_lt.mpr (hne.2 hbv)
      simp [cleanupPass, h, hbv, hw]

theorem cleanup_removes_exactly_witness :
    cleanupPass 0 (Store.set emptyStore "a"
      { count := 1, firstAttempt := 0, lastAttempt := 0,
        blocked := false, blockedUntil := 0 }) "a" =
      some { count := 1, firstAttempt := 0, lastAttempt := 0,
             blocked := false, blockedUntil := 0 } :=
  ((cleanup_removes_exactly 0 (Store.set emptyStore "a"
      { count := 1, firstAttempt := 0, lastAttempt := 0,
        blocked := false, blockedUntil := 0 }) "a").2 _
    (Store.get_set_self emptyStore "a" _)).2
    (by rw [reaperRemoves]; push_neg; exact ⟨fun hx => by decide, fun hx => by decide⟩)

/-! ### Reachable stores and the blocked-record invariant -/

theorem Store.delete_mem (s : Store) (id k : String) (r : RateLimitRecord)
    (h : (s.delete id) k = some r) : s k = some r := by
  by_cases hk : k = id
  · rw [hk, Store.get_delete_self] at h
    exact Option.noConfusion h
  · simp only [Store.delete] at h
    rwa [if_neg hk] at h

/-- The store after `checkRateLimit` is the input store or the input store
with the identifier's record deleted. -/
theorem checkRateLimit_snd_cases (now : Int) (id : String) (s : Store) :
    (checkRateLimit now id s).2 = s ∨ (checkRateLimit now id s).2 = s.delete id := by
  cases h : s id with
  | none => exact Or.inl (by rw [checkRateLimit_none now id s h])
  | some r =>
    by_cases hb : r.blocked = true
    · by_cases hu : r.blockedUntil > now
      · exact Or.inl (by rw [checkRateLimit_blocked_active now id s r h hb hu])
      · exact Or.inr
          (by rw [checkRateLimit_blocked_expired now id s r h hb (not_lt.mp hu)])
    · exact Or.inl
        (checkRateLimit_snd_not_blocked now id s r h (by simpa using hb))

theorem checkRateLimit_snd_mem (now : Int) (id : String) (s : Store)
    (k : String) (r2 : RateLimitRecord)
    (h2 : (checkRateLimit now id s).2 k = some r2) : s k = some r2 := by
  rcases checkRateLimit_snd_cases now id s with he | he
  · rwa [he] at h2
  · rw [he] at h2
    exact Store.delete_mem s id k r2 h2

theorem cleanupPass_mem (now : Int) (s : Store) (k : String)
    (r2 : RateLimitRecord) (h2 : cleanupPass now s k = some r2) :
    s k = some r2 := by
  unfold cleanupPass at h2
  cases h : s k with
  | none =>
    rw [h] at h2
    exact Option.noConfusion h2
  | some r =>
    rw [h] at h2
    dsimp only at h2
    by_cases h3 : r.blocked = true ∧ r.blockedUntil < now
    · rw [if_pos h3] at h2
      exact Option.noConfusion h2
    · rw [if_neg h3] at h2
      by_cases h4 : ¬r.blocked = true ∧ now - r.firstAttempt > WINDOW_MS
      · rw [if_pos h4] at h2
        exact Option.noConfusion h2
      · rw [if_neg h4] at h2
        exact h2

theorem recInv_mono (t t2 : Int) (r : RateLimitRecord) (hle : t ≤ t2)
    (h : RecInv t r) : RecInv t2 r :=
  ⟨le_trans h.1 hle, h.2⟩

theorem storeInv_mono (t t2 : Int) (s : Store) (hle : t ≤ t2)
    (h : StoreInv t s) : StoreInv t2 s :=
  fun k r h2 => recInv_mono t t2 r hle (h k r h2)

theorem storeInv_set (t : Int) (s : Store) (id : String) (r : RateLimitRecord)
    (hs : StoreInv t s) (hr : RecInv t r) : StoreInv t (s.set id r) := by
  intro k r2 h2
  by_cases hk : k = id
  · rw [hk, Store.get_set_self] at h2
    cases h2
    exact hr
  · rw [Store.get_set_ne s id k r hk] at h2
    exact hs k r2 h2

theorem storeInv_record (t t2 : Int) (id : String) (s : Store)
    (hs : StoreInv t s) (hle : t ≤ t2) :
    StoreInv t2 (recordFailedAttempt t2 id s).2 := by
  have hs2 : StoreInv t2 s := storeInv_mono t t2 s hle hs
  cases h : s id with
  | none =>
    rw [recordFailedAttempt_none t2 id s h]
    exact storeInv_set t2 s id _ hs2 ⟨le_refl t2, by simp⟩
  | some r =>
    by_cases hg : r.blocked = true ∧ r.blockedUntil > t2
    · rw [recordFailedAttempt_blocked_active t2 id s r h hg.1 hg.2]
      exact hs2
    · by_cases hw : t2 - r.firstAttempt > WINDOW_MS
      · rw [recordFailedAttempt_window_expired t2 id s r h hg hw]
        exact storeInv_set t2 s id _ hs2 ⟨le_refl t2, by simp⟩
      · have hr := hs2 id r h
        by_cases hc : r.count + 1 ≥ MAX_ATTEMPTS
        · rw [recordFailedAttempt_block t2 id s r h hg (not_lt.mp hw) hc]
          refine storeInv_set t2 s id _ hs2 ⟨hr.1, fun _ => ?_⟩
          exact add_le_add_right hr.1 BLOCK_DURATION_MS
        · rw [recordFailedAttempt_increment t2 id s r h hg (not_lt.mp hw)
            (not_le.mp hc)]
          exact storeInv_set t2 s id _ hs2 ⟨hr.1, fun hb => hr.2 hb⟩

theorem reachable_storeInv (t : Int) (s : Store) (h : Reachable t s) :
    StoreInv t s := by
  induction h with
  | init t =>
    intro k r h2
    exact Option.noConfusion h2
  | step_check t t2 id s hr hle ih =>
    intro k r2 h2
    exact recInv_mono t t2 r2 hle (ih k r2 (checkRateLimit_snd_mem t2 id s k r2 h2))
  | step_record t t2 id s hr hle ih =>
    exact storeInv_record t t2 id s ih hle
  | step_clear t id s hr ih =>
    intro k r2 h2
    exact ih k r2 (Store.delete_mem s id k r2 h2)
  | step_cleanup t t2 s hr hle ih =>
    intro k r2 h2
    exact recInv_mono t t2 r2 hle (ih k r2 (cleanupPass_mem t2 s k r2 h2))

/-- C7: in every reachable store, every blocked record has
`blockedUntil > firstAttempt`. -/
theorem blocked_record_bound (t : Int) (s : Store) (h : Reachable t s)
    (k : String) (r : RateLimitRecord) (h2 : s k = some r)
    (hb : r.blocked = true) : r.blockedUntil > r.firstAttempt := by
  have hi := (reachable_storeInv t s h) k r h2
  have h3 := hi.2 hb
  have hpos : (0 : Int) < BLOCK_DURATION_MS := by norm_num [BLOCK_DURATION_MS]
  linarith

theorem reachable_exStoreN : ∀ n, Reachable 0 (exStoreN n)
  | 0 => Reachable.init 0
  | n + 1 => Reachable.step_record 0 0 "a" (exStoreN n)
      (reachable_exStoreN n) le_rfl

theorem blocked_record_bound_witness :
    ({ count := 5, firstAttempt := 0, lastAttempt := 0, blocked := true,
       blockedUntil := 1800000 } : RateLimitRecord).blockedUntil >
    ({ count := 5, firstAttempt := 0, lastAttempt := 0, blocked := true,
       blockedUntil := 1800000 } : RateLimitRecord).firstAttempt :=
  blocked_record_bound 0 (exStoreN 5) (reachable_exStoreN 5) "a"
    { count := 5, firstAttempt := 0, lastAttempt := 0, blocked := true,
      blockedUntil := 1800000 } (by decide) rfl

/-- C4: on a reachable store, once a blocked record's block has expired
(`now ≥ blockedUntil`), checkRateLimit allows with remaining = maxAttempts,
and recordFailedAttempt starts over: it allows with
remaining = maxAttempts − 1 and stores a fresh count-1 record. -/
theorem block_expiry_resets (t now : Int) (id : String) (s : Store)
    (r : RateLimitRecord) (hreach : Reachable t s) (h : s id = some r)
    (hb : r.blocked = true) (hexp : now ≥ r.blockedUntil) :
    (checkRateLimit now id s).1.success = true ∧
    (checkRateLimit now id s).1.remaining = MAX_ATTEMPTS ∧
    (recordFailedAttempt now id s).1.success = true ∧
    (recordFailedAttempt now id s).1.remaining = MAX_ATTEMPTS - 1 ∧
    (recordFailedAttempt now id s).2 id =
      some { count := 1, firstAttempt := now, lastAttempt := now,
             blocked := false, blockedUntil := 0 } := by
  have hi := (reachable_storeInv t s hreach) id r h
  have h3 := hi.2 hb
  have hwin : now - r.firstAttempt > WINDOW_MS := by
    have h4 : r.firstAttempt + BLOCK_DURATION_MS ≤ now := le_trans h3 hexp
    have h5 : WINDOW_MS < BLOCK_DURATION_MS := by
      norm_num [WINDOW_MS, BLOCK_DURATION_MS]
    linarith
  have hg : ¬(r.blocked = true ∧ r.blockedUntil > now) := fun hx =>
    absurd hx.2 (not_lt.mpr hexp)
  refine ⟨?_, ?_, ?_, ?_, ?_⟩
  · rw [checkRateLimit_blocked_expired now id s r h hb hexp]
  · rw [checkRateLimit_blocked_expired now id s r h hb hexp]
  · rw [recordFailedAttempt_window_expired now id s r h hg hwin]
  · rw [recordFailedAttempt_window_expired now id s r h hg hwin]
  · rw [recordFailedAttempt_window_expired now id s r h hg hwin]
    exact Store.get_set_self s id _

theorem block_expiry_resets_witness :
    (checkRateLimit 1800000 "a" (exStoreN 5)).1.success = true ∧
    (checkRateLimit 1800000 "a" (exStoreN 5)).1.remaining = MAX_ATTEMPTS ∧
    (recordFailedAttempt 1800000 "a" (exStoreN 5)).1.success = true ∧
    (recordFailedAttempt 1800000 "a" (exStoreN 5)).1.remaining =
      MAX_ATTEMPTS - 1 ∧
    (recordFailedAttempt 1800000 "a" (exStoreN 5)).2 "a" =
      some { count := 1, firstAttempt := 1800000, lastAttempt := 1800000,
             blocked := false, blockedUntil := 0 } :=
  block_expiry_resets 0 1800000 "a" (exStoreN 5)
    { count := 5, firstAttempt := 0, lastAttempt := 0, blocked := true,
      blockedUntil := 1800000 } (reachable_exStoreN 5) (by decide) rfl
    (by decide)

/-! ### Iterated failures: threshold blocking and counting -/

theorem recordFailedAttempt_winRecord (now t0 tl c : Int) (id : String)
    (s : Store) (h : s id = some (winRecord c t0 tl))
    (hw : now - t0 ≤ WINDOW_MS) (hc : c + 1 < MAX_ATTEMPTS) :
    (recordFailedAttempt now id s).1.success = true ∧
    (recordFailedAttempt now id s).2 = s.set id (winRecord (c + 1) t0 now) := by
  have hg : ¬((winRecord c t0 tl).blocked = true ∧
      (winRecord c t0 tl).blockedUntil > now) := by
    rintro ⟨hx, -⟩
    exact absurd hx (by simp [winRecord])
  rw [recordFailedAttempt_increment now id s (winRecord c t0 tl) h hg hw hc]
  exact ⟨rfl, rfl⟩

theorem recordFailedAttempt_winRecord_block (now t0 tl c : Int) (id : String)
    (s : Store) (h : s id = some (winRecord c t0 tl))
    (hw : now - t0 ≤ WINDOW_MS) (hc : c + 1 ≥ MAX_ATTEMPTS) :
    (recordFailedAttempt now id s).1.blocked = true ∧
    (recordFailedAttempt now id s).1.success = false ∧
    (recordFailedAttempt now id s).2 = s.set id
      { count := c + 1, firstAttempt := t0, lastAttempt := now,
        blocked := true, blockedUntil := now + BLOCK_DURATION_MS } := by
  have hg : ¬((winRecord c t0 tl).blocked = true ∧
      (winRecord c t0 tl).blockedUntil > now) := by
    rintro ⟨hx, -⟩
    exact absurd hx (by simp [winRecord])
  rw [recordFailedAttempt_block now id s (winRecord c t0 tl) h hg hw hc]
  exact ⟨rfl, rfl, rfl⟩

/-- C2: five failures for a fresh identifier, all inside one window, block
on the fifth call, and every check strictly before the resulting
`blockedUntil` (= t5 + blockDuration) denies. -/
theorem five_failures_blocks (id : String) (s : Store) (t1 t2 t3 t4 t5 : Int)
    (h0 : s id = none) (h12 : t1 ≤ t2) (h23 : t2 ≤ t3) (h34 : t3 ≤ t4)
    (h45 : t4 ≤ t5) (hw : t5 - t1 ≤ WINDOW_MS) :
    (recordFailedAttempt t5 id (runFailures id [t1, t2, t3, t4] s)).1.blocked =
      true ∧
    (recordFailedAttempt t5 id (runFailures id [t1, t2, t3, t4] s)).1.success =
      false ∧
    ∀ t6, t6 < t5 + BLOCK_DURATION_MS →
      (checkRateLimit t6 id
        (recordFailedAttempt t5 id
          (runFailures id [t1, t2, t3, t4] s)).2).1.success = false := by
  have hrun : runFailures id [t1, t2, t3, t4] s =
      (recordFailedAttempt t4 id (recordFailedAttempt t3 id
        (recordFailedAttempt t2 id (recordFailedAttempt t1 id s).2).2).2).2 := rfl
  have f1 : (recordFailedAttempt t1 id s).2 =
      Store.set s id (winRecord 1 t1 t1) := by
    rw [recordFailedAttempt_none t1 id s h0]
    rfl
  have st2 := recordFailedAttempt_winRecord t2 t1 t1 1 id
    (Store.set s id (winRecord 1 t1 t1))
    (Store.get_set_self s id (winRecord 1 t1 t1)) (by linarith)
    (by norm_num [MAX_ATTEMPTS])
  have st3 := recordFailedAttempt_winRecord t3 t1 t2 (1 + 1) id
    (Store.set (Store.set s id (winRecord 1 t1 t1)) id (winRecord (1 + 1) t1 t2))
    (Store.get_set_self (Store.set s id (winRecord 1 t1 t1)) id
      (winRecord (1 + 1) t1 t2)) (by linarith)
    (by norm_num [MAX_ATTEMPTS])
  have st4 := recordFailedAttempt_winRecord t4 t1 t3 (1 + 1 + 1) id
    (Store.set (Store.set (Store.set s id (winRecord 1 t1 t1)) id
      (winRecord (1 + 1) t1 t2)) id (winRecord (1 + 1 + 1) t1 t3))
    (Store.get_set_self (Store.set (Store.set s id (winRecord 1 t1 t1)) id
      (winRecord (1 + 1) t1 t2)) id (winRecord (1 + 1 + 1) t1 t3)) (by linarith)
    (by norm_num [MAX_ATTEMPTS])
  have st5 := recordFailedAttempt_winRecord_block t5 t1 t4 (1 + 1 + 1 + 1) id
    (Store.set (Store.set (Store.set (Store.set s id (winRecord 1 t1 t1)) id
      (winRecord (1 + 1) t1 t2)) id (winRecord (1 + 1 + 1) t1 t3)) id
      (winRecord (1 + 1 + 1 + 1) t1 t4))
    (Store.get_set_self (Store.set (Store.set (Store.set s id
      (winRecord 1 t1 t1)) id (winRecord (1 + 1) t1 t2)) id
      (winRecord (1 + 1 + 1) t1 t3)) id (winRecord (1 + 1 + 1 + 1) t1 t4))
    (by linarith) (by norm_num [MAX_ATTEMPTS])
  rw [hrun, f1, st2.2, st3.2, st4.2]
  refine ⟨st5.1, st5.2.1, ?_⟩
  intro t6 ht6
  rw [st5.2.2]
  rw [checkRateLimit_blocked_active t6 id _
    { count := 1 + 1 + 1 + 1 + 1, firstAttempt := t1, lastAttempt := t5,
      blocked := true, blockedUntil := t5 + BLOCK_DURATION_MS }
    (Store.get_set_self _ id _) rfl ht6]

theorem five_failures_blocks_witness :
    (recordFailedAttempt 0 "a" (runFailures "a" [0, 0, 0, 0] emptyStore)).1.blocked =
      true ∧
    (checkRateLimit 1799999 "a"
      (recordFailedAttempt 0 "a"
        (runFailures "a" [0, 0, 0, 0] emptyStore)).2).1.success = false := by
  have h := five_failures_blocks "a" emptyStore 0 0 0 0 0 rfl le_rfl le_rfl
    le_rfl le_rfl (by norm_num [WINDOW_MS])
  exact ⟨h.1, h.2.2 1799999 (by norm_num [BLOCK_DURATION_MS])⟩

/-- Counting lemma behind C9: from an in-window record with count `k`,
`m` further same-instant failures leave count `k + m` as long as the
threshold is never reached. -/
theorem runFailures_replicate_aux (m : Nat) :
    ∀ (k : Nat) (now : Int) (id : String) (s : Store), 1 ≤ k →
    k + m < 5 → s id = some (winRecord (k : Int) now now) →
    (runFailures id (List.replicate m now) s) id =
      some (winRecord ((k + m : Nat) : Int) now now) := by
  induction m with
  | zero =>
    intro k now id s h1 h5 h
    simpa [runFailures] using h
  | succ m ih =>
    intro k now id s h1 h5 h
    have step := recordFailedAttempt_winRecord now now now (k : Int) id s h
      (by norm_num [WINDOW_MS]) (by simp only [MAX_ATTEMPTS]; omega)
    rw [List.replicate_succ]
    show (runFailures id (List.replicate m now)
      (recordFailedAttempt now id s).2) id = _
    rw [step.2]
    have hget : (s.set id (winRecord ((k : Int) + 1) now now)) id =
        some (winRecord (((k + 1 : Nat) : Int)) now now) := by
      rw [Store.get_set_self]
      norm_num
    have hres := ih (k + 1) now id _ (by omega) (by omega) hget
    have hEq : (k + 1) + m = k + (m + 1) := by omega
    rw [hEq] at hres
    exact hres

/-- C9: `n` calls of `recordFailedAttempt` for the same identifier at the
same instant, starting from no record, leave the record with count exactly
`n` when `1 ≤ n < maxAttempts` (the source is single-threaded JavaScript:
each call is atomic, so concurrent calls execute as such a sequence and no
update is lost). -/
theorem sequential_failures_count (n : Nat) (now : Int) (id : String)
    (s : Store) (h0 : s id = none) (h1 : 1 ≤ n) (h5 : n < 5) :
    (runFailures id (List.replicate n now) s) id =
      some (winRecord (n : Int) now now) := by
  obtain ⟨m, rfl⟩ : ∃ m, n = m + 1 := ⟨n - 1, by omega⟩
  rw [List.replicate_succ]
  show (runFailures id (List.replicate m now)
    (recordFailedAttempt now id s).2) id = _
  have f1 : (recordFailedAttempt now id s).2 =
      Store.set s id (winRecord 1 now now) := by
    rw [recordFailedAttempt_none now id s h0]
    rfl
  rw [f1]
  have hget : (s.set id (winRecord 1 now now)) id =
      some (winRecord ((1 : Nat) : Int) now now) := by
    rw [Store.get_set_self]
    norm_num
  have hres := runFailures_replicate_aux m 1 now id _ le_rfl (by omega) hget
  have hEq : 1 + m = m + 1 := by omega
  rw [hEq] at hres
  exact hres

theorem sequential_failures_count_witness :
    (runFailures "a" (List.replicate 3 0) emptyStore) "a" =
      some (winRecord ((3 : Nat) : Int) 0 0) :=
  sequential_failures_count 3 0 "a" emptyStore rfl (by norm_num) (by norm_num)

example :
    (recordFailedAttempt 0 "a" emptyStore).1 =
      { success := true, remaining := 4, resetIn := 900, blocked := false } := by
  decide

example :
    ((recordFailedAttempt 0 "a" emptyStore).2 "a") =
      some { count := 1, firstAttempt := 0, lastAttempt := 0,
             blocked := false, blockedUntil := 0 } := by
  decide

example :
    (checkRateLimit 0 "a" emptyStore).1 =
      { success := true, remaining := 5, resetIn := 900, blocked := false } := by
  decide

end RateLimit
